import Mathlib

/-!
Shallow embedding of `src/main.rs` (stack-usage comparison of pure vs boxed
recursion).  Machine integers (`u8`, `u64`, `u128`) are modelled as `Nat`:
the only arithmetic the source performs on them is the loop counter
`for i in 1..=n` and the countdown `n - 1` guarded by `n > 0`, both of which
stay inside the value range of the corresponding Rust type, so no modular
reduction can occur and the `Nat` model is exact.  The stack probe
(`stacker::remaining_stack`) is an opaque external service: it is modelled
as a function from the call index (the number of probe calls already made
in the walk) to `Option Nat`.  `&mut Vec<usize>` / `&mut String` output
parameters become explicit state threaded through and returned.
-/

/-- Rust `enum BoxedFact<T> { Next(T, Box<BoxedFact<T>>), Done(T) }`. -/
inductive BoxedFact (T : Type) where
  | Next : T → BoxedFact T → BoxedFact T
  | Done : T → BoxedFact T
deriving DecidableEq

/-- Rust `fn make_boxed_fact_u8(n: u8) -> BoxedFact<u8>`:
`let mut current = Done(1); for i in 1..=n { current = Next(i, Box::new(current)); } current`.
`List.range' 1 n = [1, 2, ..., n]` is the iteration sequence of `1..=n`. -/
def make_boxed_fact_u8 (n : Nat) : BoxedFact Nat :=
  (List.range' 1 n).foldl (fun current i => BoxedFact.Next i current) (BoxedFact.Done 1)

/-- Rust `fn make_boxed_fact_u64(n: u64) -> BoxedFact<u64>` (body identical to the u8 one). -/
def make_boxed_fact_u64 (n : Nat) : BoxedFact Nat :=
  (List.range' 1 n).foldl (fun current i => BoxedFact.Next i current) (BoxedFact.Done 1)

/-- Rust `fn make_boxed_fact_u128(n: u128) -> BoxedFact<u128>` (body identical to the u8 one). -/
def make_boxed_fact_u128 (n : Nat) : BoxedFact Nat :=
  (List.range' 1 n).foldl (fun current i => BoxedFact.Next i current) (BoxedFact.Done 1)

/-- The payload values of a chain, read head to tail along the `rest` links
(the `Done` payload last). -/
def chainPayloads {T : Type} : BoxedFact T → List T
  | BoxedFact.Next x rest => x :: chainPayloads rest
  | BoxedFact.Done x => [x]

/-- Number of nodes in a chain. -/
def chainLength {T : Type} (f : BoxedFact T) : Nat :=
  (chainPayloads f).length

/-- Rust `enum BoxedString { Next(String, Box<BoxedString>), Done(String) }`. -/
inductive BoxedString where
  | Next : String → BoxedString → BoxedString
  | Done : String → BoxedString
deriving DecidableEq

/-- Rust `fn make_boxed_string(n: u64) -> BoxedString`:
`let mut current = Done(format!("{}-", 0)); for i in (1..=n).rev() { current = Next(format!("{}-", i), Box::new(current)); } current`.
Note the `.rev()`: the loop runs i = n, n-1, ..., 1. -/
def make_boxed_string (n : Nat) : BoxedString :=
  (List.range' 1 n).reverse.foldl
    (fun current i => BoxedString.Next (toString i ++ "-") current)
    (BoxedString.Done (toString (0 : Nat) ++ "-"))

/-- The string labels of a `BoxedString` chain, read head to tail. -/
def chainLabels : BoxedString → List String
  | BoxedString.Next s rest => s :: chainLabels rest
  | BoxedString.Done s => [s]

/-- Number of nodes in a `BoxedString` chain. -/
def chainLengthS (f : BoxedString) : Nat :=
  (chainLabels f).length

/-- The sampling step shared by every tracked walker, Rust
`if let Some(rem) = remaining_stack() { stack_info.push(rem); }`,
with the probe answer for this call taken from `probe idx`. -/
def push_sample (probe : Nat → Option Nat) (idx : Nat) (stack_info : List Nat) : List Nat :=
  match probe idx with
  | some rem => stack_info ++ [rem]
  | none => stack_info

/-- Rust `fn eval_boxed_fact_tracked<T>(f: &BoxedFact<T>, stack_info: &mut Vec<usize>)`:
sample the probe, then recurse into `next` on `Next` and stop on `Done`.
Returns (next probe call index, final sample list). -/
def eval_boxed_fact_tracked {T : Type} (probe : Nat → Option Nat) :
    BoxedFact T → Nat → List Nat → Nat × List Nat
  | f, idx, stack_info =>
    let stack_info := push_sample probe idx stack_info
    match f with
    | BoxedFact.Next _ next => eval_boxed_fact_tracked probe next (idx + 1) stack_info
    | BoxedFact.Done _ => (idx + 1, stack_info)

/-- Rust `fn simple_factorial_tracked_u8(n: u8, stack_info: &mut Vec<usize>)`:
sample the probe, then `if n > 0 { simple_factorial_tracked_u8(n - 1, stack_info) }`.
Returns (next probe call index, final sample list). -/
def simple_factorial_tracked_u8 (probe : Nat → Option Nat) :
    Nat → Nat → List Nat → Nat × List Nat
  | n, idx, stack_info =>
    let stack_info := push_sample probe idx stack_info
    match n with
    | m + 1 => simple_factorial_tracked_u8 probe m (idx + 1) stack_info
    | 0 => (idx + 1, stack_info)

/-- Rust `fn simple_factorial_tracked_u64` (body identical to the u8 one). -/
def simple_factorial_tracked_u64 (probe : Nat → Option Nat) :
    Nat → Nat → List Nat → Nat × List Nat
  | n, idx, stack_info =>
    let stack_info := push_sample probe idx stack_info
    match n with
    | m + 1 => simple_factorial_tracked_u64 probe m (idx + 1) stack_info
    | 0 => (idx + 1, stack_info)

/-- Rust `fn simple_factorial_tracked_u128` (body identical to the u8 one). -/
def simple_factorial_tracked_u128 (probe : Nat → Option Nat) :
    Nat → Nat → List Nat → Nat × List Nat
  | n, idx, stack_info =>
    let stack_info := push_sample probe idx stack_info
    match n with
    | m + 1 => simple_factorial_tracked_u128 probe m (idx + 1) stack_info
    | 0 => (idx + 1, stack_info)

/-- Rust `fn simple_string_tracked(n: u64, stack_info: &mut Vec<usize>, s: &mut String)`:
sample the probe, `s.push_str(&format!("{}-", n))`, then recurse on `n - 1` if `n > 0`.
Returns (next probe call index, final sample list, final output buffer). -/
def simple_string_tracked (probe : Nat → Option Nat) :
    Nat → Nat → List Nat → String → Nat × List Nat × String
  | n, idx, stack_info, s =>
    let stack_info := push_sample probe idx stack_info
    let s := s ++ (toString n ++ "-")
    match n with
    | m + 1 => simple_string_tracked probe m (idx + 1) stack_info s
    | 0 => (idx + 1, stack_info, s)

/-- Rust `fn eval_boxed_string_tracked(f: &BoxedString, stack_info: &mut Vec<usize>, out: &mut String)`:
sample the probe, then on `Next(s, next)` append `s` to `out` and recurse,
on `Done(s)` append `s` and stop. -/
def eval_boxed_string_tracked (probe : Nat → Option Nat) :
    BoxedString → Nat → List Nat → String → Nat × List Nat × String
  | f, idx, stack_info, out =>
    let stack_info := push_sample probe idx stack_info
    match f with
    | BoxedString.Next s next =>
        eval_boxed_string_tracked probe next (idx + 1) stack_info (out ++ s)
    | BoxedString.Done s => (idx + 1, stack_info, out ++ s)

/-- Rust `fn analyze_stack(stack_info: &[usize]) -> Option<(usize, f64)>`.
`first().copied()?` is the early return on an empty slice;
`iter().min().unwrap_or(&start)` is `min?.getD start`; `saturating_sub` on
`usize` is truncated subtraction on `Nat`; the `f64` division
`used as f64 / len as f64` is modelled exactly as rational division. -/
def analyze_stack (stack_info : List Nat) : Option (Nat × ℚ) :=
  if stack_info.length < 2 then none
  else
    match stack_info.head? with
    | none => none
    | some start =>
      let endv := (stack_info.min?).getD start
      let used := start - endv
      some (used, (used : ℚ) / (stack_info.length : ℚ))

/-! ### Chain shape lemmas -/

/-- Payloads of a fold of `Next`-wrappings: the wrapped values in reverse
order, then the payloads of the initial accumulator. -/
theorem chainPayloads_foldl (l : List Nat) (acc : BoxedFact Nat) :
    chainPayloads (l.foldl (fun current i => BoxedFact.Next i current) acc) =
      l.reverse ++ chainPayloads acc := by
  induction l generalizing acc with
  | nil => simp
  | cons a l ih =>
      simp only [List.foldl_cons, List.reverse_cons, List.append_assoc]
      rw [ih]
      simp [chainPayloads]

/-- Labels of a fold of `BoxedString.Next`-wrappings. -/
theorem chainLabels_foldl (g : Nat → String) (l : List Nat) (acc : BoxedString) :
    chainLabels (l.foldl (fun current i => BoxedString.Next (g i) current) acc) =
      l.reverse.map g ++ chainLabels acc := by
  induction l generalizing acc with
  | nil => simp
  | cons a l ih =>
      simp only [List.foldl_cons, List.reverse_cons, List.append_assoc, List.map_append]
      rw [ih]
      simp [chainLabels]

/-- The integer builders produce payloads `[n, n-1, ..., 1]` and then the
`Done` payload `1`. -/
theorem chainPayloads_make_boxed_fact (n : Nat) :
    chainPayloads (make_boxed_fact_u8 n) = (List.range' 1 n).reverse ++ [1] := by
  unfold make_boxed_fact_u8
  rw [chainPayloads_foldl]
  rfl

/-- The three integer builders are the same function. -/
theorem make_boxed_fact_eq (n : Nat) :
    make_boxed_fact_u64 n = make_boxed_fact_u8 n ∧
      make_boxed_fact_u128 n = make_boxed_fact_u8 n :=
  ⟨rfl, rfl⟩

/-- The string builder produces labels `["1-", "2-", ..., "n-", "0-"]`:
ascending because of the `.rev()` in the loop. -/
theorem chainLabels_make_boxed_string (n : Nat) :
    chainLabels (make_boxed_string n) =
      (List.range' 1 n).map (fun i => toString i ++ "-") ++ [toString (0 : Nat) ++ "-"] := by
  unfold make_boxed_string
  rw [chainLabels_foldl]
  simp [chainLabels]

/-- The integer chain for `n` has `n + 1` nodes. -/
theorem chainLength_make_boxed_fact (n : Nat) :
    chainLength (make_boxed_fact_u8 n) = n + 1 := by
  unfold chainLength
  rw [chainPayloads_make_boxed_fact]
  simp

/-- The string chain for `n` has `n + 1` nodes. -/
theorem chainLengthS_make_boxed_string (n : Nat) :
    chainLengthS (make_boxed_string n) = n + 1 := by
  unfold chainLengthS
  rw [chainLabels_make_boxed_string]
  simp

/-! ### Claims about the builders (C1, C2, C10) -/

/-- Claim C1, counterexample: `build(5)` for the narrow-integer kind does
NOT yield the payload sequence `[5,4,3,2,1,0]` — the terminal `Done` node
carries payload `1`, not `0`. -/
theorem C1_counterexample_build5 :
    chainPayloads (make_boxed_fact_u8 5) ≠ [5, 4, 3, 2, 1, 0] := by decide

/-- Claim C1 (amended): for every depth `n ≥ 1` and every integer payload
kind, `build(n)` produces a chain of exactly `n+1` nodes whose payload
values, read head to tail, are `n, n-1, ..., 1` followed by the terminal
`Done` payload `1` (the factorial base value) — head payload `n` and
terminal payload `1`; in particular `build(5)` yields `[5,4,3,2,1,1]`. -/
theorem C1_amended_build_chain (n : Nat) (h : 1 ≤ n) :
    chainPayloads (make_boxed_fact_u8 n) = (List.range' 1 n).reverse ++ [1] ∧
    chainPayloads (make_boxed_fact_u64 n) = (List.range' 1 n).reverse ++ [1] ∧
    chainPayloads (make_boxed_fact_u128 n) = (List.range' 1 n).reverse ++ [1] ∧
    chainLength (make_boxed_fact_u8 n) = n + 1 ∧
    chainLength (make_boxed_fact_u64 n) = n + 1 ∧
    chainLength (make_boxed_fact_u128 n) = n + 1 ∧
    (chainPayloads (make_boxed_fact_u8 n)).head? = some n ∧
    (chainPayloads (make_boxed_fact_u8 n)).getLast? = some 1 ∧
    chainPayloads (make_boxed_fact_u8 5) = [5, 4, 3, 2, 1, 1] := by
  obtain ⟨m, rfl⟩ : ∃ m, n = m + 1 := ⟨n - 1, by omega⟩
  refine ⟨chainPayloads_make_boxed_fact _, chainPayloads_make_boxed_fact _,
    chainPayloads_make_boxed_fact _, chainLength_make_boxed_fact _,
    chainLength_make_boxed_fact _, chainLength_make_boxed_fact _, ?_, ?_, by decide⟩
  · rw [chainPayloads_make_boxed_fact, List.range'_concat]
    simp [Nat.add_comm]
  · rw [chainPayloads_make_boxed_fact]
    simp

/-- Claim C1 amended, witness at `n = 5`. -/
theorem C1_amended_build_chain_witness :
    chainPayloads (make_boxed_fact_u8 5) = (List.range' 1 5).reverse ++ [1] ∧
    chainPayloads (make_boxed_fact_u64 5) = (List.range' 1 5).reverse ++ [1] ∧
    chainPayloads (make_boxed_fact_u128 5) = (List.range' 1 5).reverse ++ [1] ∧
    chainLength (make_boxed_fact_u8 5) = 5 + 1 ∧
    chainLength (make_boxed_fact_u64 5) = 5 + 1 ∧
    chainLength (make_boxed_fact_u128 5) = 5 + 1 ∧
    (chainPayloads (make_boxed_fact_u8 5)).head? = some 5 ∧
    (chainPayloads (make_boxed_fact_u8 5)).getLast? = some 1 ∧
    chainPayloads (make_boxed_fact_u8 5) = [5, 4, 3, 2, 1, 1] :=
  C1_amended_build_chain 5 (by decide)

/-- Claim C2: the labels of `make_boxed_string n` ASCEND from the head
(because the construction loop is `(1..=n).rev()`), contradicting the
claimed head label `n` with descending labels.  At `n = 3` the chain reads
`["1-", "2-", "3-", "0-"]`, not `["3-", "2-", "1-", "0-"]`. -/
theorem C2_boxed_string_labels_ascend :
    chainLabels (make_boxed_string 3) = ["1-", "2-", "3-", "0-"] ∧
    chainLabels (make_boxed_string 3) ≠ ["3-", "2-", "1-", "0-"] ∧
    (chainLabels (make_boxed_string 3)).head? = some "1-" := by
  refine ⟨by decide, by decide, by decide⟩

/-- Claim C10: for `n = 0` each integer builder returns exactly the `Done`
terminal with payload `1` (not `0`); the wrapping loop runs zero times, so
the chain has exactly one node. -/
theorem C10_build_zero :
    make_boxed_fact_u8 0 = BoxedFact.Done 1 ∧
    make_boxed_fact_u64 0 = BoxedFact.Done 1 ∧
    make_boxed_fact_u128 0 = BoxedFact.Done 1 ∧
    chainLength (make_boxed_fact_u8 0) = 1 ∧
    chainPayloads (make_boxed_fact_u8 0) = [1] :=
  ⟨rfl, rfl, rfl, rfl, rfl⟩

/-! ### Claim about the string walks (C3) -/

/-- Claim C3: at depth 3, starting from empty output buffers, the pure
string walk produces `"3-2-1-0-"` but the boxed string walk over
`make_boxed_string 3` produces `"1-2-3-0-"` — the two buffers are NOT
byte-identical (the construction loop's `.rev()` makes the boxed chain
ascend). -/
theorem C3_string_walks_depth3 :
    (simple_string_tracked (fun _ => some 0) 3 0 [] "").2.2 = "3-2-1-0-" ∧
    (eval_boxed_string_tracked (fun _ => some 0) (make_boxed_string 3) 0 [] "").2.2 =
      "1-2-3-0-" ∧
    (eval_boxed_string_tracked (fun _ => some 0) (make_boxed_string 3) 0 [] "").2.2 ≠
      (simple_string_tracked (fun _ => some 0) 3 0 [] "").2.2 := by
  refine ⟨by decide, by decide, by decide⟩

/-! ### Sample-count lemmas for the tracked evaluators (C4) -/

/-- When the probe answers, the sampling step appends exactly one sample. -/
theorem push_sample_length (probe : Nat → Option Nat) (idx : Nat) (info : List Nat)
    (h : (probe idx).isSome) :
    (push_sample probe idx info).length = info.length + 1 := by
  obtain ⟨r, hr⟩ := Option.isSome_iff_exists.mp h
  simp [push_sample, hr]

/-- The pure u8 walk makes exactly `n + 1` calls and, when the probe always
answers, appends exactly `n + 1` samples. -/
theorem simple_factorial_tracked_u8_spec (probe : Nat → Option Nat)
    (h : ∀ i, (probe i).isSome) (n : Nat) :
    ∀ idx info,
      (simple_factorial_tracked_u8 probe n idx info).1 = idx + n + 1 ∧
      (simple_factorial_tracked_u8 probe n idx info).2.length = info.length + n + 1 := by
  induction n with
  | zero =>
      intro idx info
      simp [simple_factorial_tracked_u8, push_sample_length probe idx info (h idx)]
  | succ m ih =>
      intro idx info
      simp only [simple_factorial_tracked_u8]
      obtain ⟨h1, h2⟩ := ih (idx + 1) (push_sample probe idx info)
      refine ⟨by omega, ?_⟩
      rw [h2, push_sample_length probe idx info (h idx)]
      omega

/-- The u64 walker is the same function as the u8 one. -/
theorem simple_factorial_tracked_u64_eq :
    simple_factorial_tracked_u64 = simple_factorial_tracked_u8 := by
  funext probe n
  induction n with
  | zero => rfl
  | succ m ih =>
      funext idx info
      simp only [simple_factorial_tracked_u64, simple_factorial_tracked_u8]
      rw [congrFun (congrFun ih (idx + 1)) (push_sample probe idx info)]

/-- The u128 walker is the same function as the u8 one. -/
theorem simple_factorial_tracked_u128_eq :
    simple_factorial_tracked_u128 = simple_factorial_tracked_u8 := by
  funext probe n
  induction n with
  | zero => rfl
  | succ m ih =>
      funext idx info
      simp only [simple_factorial_tracked_u128, simple_factorial_tracked_u8]
      rw [congrFun (congrFun ih (idx + 1)) (push_sample probe idx info)]

/-- The boxed walk makes exactly one call per node and, when the probe
always answers, appends exactly one sample per node. -/
theorem eval_boxed_fact_tracked_spec {T : Type} (probe : Nat → Option Nat)
    (h : ∀ i, (probe i).isSome) (c : BoxedFact T) :
    ∀ idx info,
      (eval_boxed_fact_tracked probe c idx info).1 = idx + chainLength c ∧
      (eval_boxed_fact_tracked probe c idx info).2.length = info.length + chainLength c := by
  induction c with
  | Done x =>
      intro idx info
      simp [eval_boxed_fact_tracked, chainLength, chainPayloads,
        push_sample_length probe idx info (h idx)]
  | Next x rest ih =>
      intro idx info
      simp only [eval_boxed_fact_tracked]
      obtain ⟨h1, h2⟩ := ih (idx + 1) (push_sample probe idx info)
      have hlen : chainLength (BoxedFact.Next x rest) = chainLength rest + 1 := by
        simp [chainLength, chainPayloads]
      rw [hlen]
      refine ⟨by omega, ?_⟩
      rw [h2, push_sample_length probe idx info (h idx)]
      omega

/-- Claim C4: under the precondition that the stack probe returns a value at
every call, each tracked evaluator appends exactly one sample per recursion
level and recurses exactly once per level: the pure integer walkers started
at counter `n` make `n + 1` calls and append `n + 1` samples, the boxed
walker on a chain of `k` nodes makes `k` calls and appends `k` samples, and
a pure integer walk at depth `0` yields exactly one sample. -/
theorem C4_one_sample_per_level (probe : Nat → Option Nat)
    (h : ∀ i, (probe i).isSome) (n : Nat) (c : BoxedFact Nat) :
    (simple_factorial_tracked_u8 probe n 0 []).2.length = n + 1 ∧
    (simple_factorial_tracked_u8 probe n 0 []).1 = n + 1 ∧
    (simple_factorial_tracked_u64 probe n 0 []).2.length = n + 1 ∧
    (simple_factorial_tracked_u128 probe n 0 []).2.length = n + 1 ∧
    (eval_boxed_fact_tracked probe c 0 []).2.length = chainLength c ∧
    (eval_boxed_fact_tracked probe c 0 []).1 = chainLength c ∧
    (simple_factorial_tracked_u64 probe 0 0 []).2.length = 1 := by
  obtain ⟨hp1, hp2⟩ := simple_factorial_tracked_u8_spec probe h n 0 []
  obtain ⟨hb1, hb2⟩ := eval_boxed_fact_tracked_spec probe h c 0 []
  obtain ⟨hz1, hz2⟩ := simple_factorial_tracked_u8_spec probe h 0 0 []
  rw [simple_factorial_tracked_u64_eq, simple_factorial_tracked_u128_eq]
  exact ⟨by simpa using hp2, by simpa using hp1, by simpa using hp2,
    by simpa using hp2, by simpa using hb2, by simpa using hb1, by simpa using hz2⟩

/-- Claim C4, witness: the always-answering probe `fun _ => some 0`, the
pure walkers at depth 2, and the boxed walker on the 3-node chain
`make_boxed_fact_u8 2`. -/
theorem C4_one_sample_per_level_witness :
    (simple_factorial_tracked_u8 (fun _ => some 0) 2 0 []).2.length = 2 + 1 ∧
    (simple_factorial_tracked_u8 (fun _ => some 0) 2 0 []).1 = 2 + 1 ∧
    (simple_factorial_tracked_u64 (fun _ => some 0) 2 0 []).2.length = 2 + 1 ∧
    (simple_factorial_tracked_u128 (fun _ => some 0) 2 0 []).2.length = 2 + 1 ∧
    (eval_boxed_fact_tracked (fun _ => some 0) (make_boxed_fact_u8 2) 0 []).2.length =
      chainLength (make_boxed_fact_u8 2) ∧
    (eval_boxed_fact_tracked (fun _ => some 0) (make_boxed_fact_u8 2) 0 []).1 =
      chainLength (make_boxed_fact_u8 2) ∧
    (simple_factorial_tracked_u64 (fun _ => some 0) 0 0 []).2.length = 1 :=
  C4_one_sample_per_level (fun _ => some 0) (fun _ => rfl) 2 (make_boxed_fact_u8 2)

/-! ### Minimum lemmas and the analyzer (C5, C6, C9) -/

/-- A left fold of `min` never exceeds its initial value. -/
theorem foldl_min_le_init (l : List Nat) : ∀ a : Nat, List.foldl min a l ≤ a := by
  induction l with
  | nil => intro a; exact Nat.le_refl a
  | cons b l ih =>
      intro a
      calc List.foldl min a (b :: l) = List.foldl min (min a b) l := rfl
        _ ≤ min a b := ih (min a b)
        _ ≤ a := Nat.min_le_left a b

/-- A left fold of `min` never exceeds any list element. -/
theorem foldl_min_le_mem (l : List Nat) :
    ∀ a b : Nat, b ∈ l → List.foldl min a l ≤ b := by
  induction l with
  | nil => intro a b hb; cases hb
  | cons c l ih =>
      intro a b hb
      rcases List.mem_cons.mp hb with hbc | hbl
      · subst hbc
        calc List.foldl min a (b :: l) = List.foldl min (min a b) l := rfl
          _ ≤ min a b := foldl_min_le_init l (min a b)
          _ ≤ b := Nat.min_le_right a b
      · exact ih (min a c) b hbl

/-- A left fold of `min` is the initial value or some list element. -/
theorem foldl_min_mem (l : List Nat) :
    ∀ a : Nat, List.foldl min a l = a ∨ List.foldl min a l ∈ l := by
  induction l with
  | nil => intro a; exact Or.inl rfl
  | cons b l ih =>
      intro a
      rcases ih (min a b) with hmin | hmem
      · rw [List.foldl_cons, hmin]
        rcases Nat.le_total a b with hab | hba
        · exact Or.inl (Nat.min_eq_left hab)
        · right
          rw [Nat.min_eq_right hba]
          exact List.mem_cons_self b l
      · exact Or.inr (List.mem_cons_of_mem b hmem)

/-- On a list with at least two entries the analyzer returns
`(first - min, (first - min) / length)`. -/
theorem analyze_stack_cons (x y : Nat) (t : List Nat) :
    analyze_stack (x :: y :: t) =
      some (x - List.foldl min x (y :: t),
        ((x - List.foldl min x (y :: t) : Nat) : ℚ) / (((x :: y :: t).length : Nat) : ℚ)) := by
  simp [analyze_stack, List.min?]

/-- Claim C5: for every sample sequence with at least 2 samples, `analyze`
returns `total_used` equal to the first sample minus the minimum sample of
the sequence (`List.foldl min x (y :: t)` is a member of the sequence and a
lower bound of it, hence its minimum) and `per_level` equal to
`total_used / sample_count` as an exact rational mean. -/
theorem C5_analyze_formula (x y : Nat) (t : List Nat) :
    (List.foldl min x (y :: t) ∈ x :: y :: t ∧
      ∀ a ∈ x :: y :: t, List.foldl min x (y :: t) ≤ a) ∧
    analyze_stack (x :: y :: t) =
      some (x - List.foldl min x (y :: t),
        ((x - List.foldl min x (y :: t) : Nat) : ℚ) / (((x :: y :: t).length : Nat) : ℚ)) := by
  refine ⟨⟨?_, ?_⟩, analyze_stack_cons x y t⟩
  · rcases foldl_min_mem (y :: t) x with hx | hmem
    · rw [hx]; exact List.mem_cons_self x (y :: t)
    · exact List.mem_cons_of_mem x hmem
  · intro a ha
    rcases List.mem_cons.mp ha with hax | hat
    · subst hax; exact foldl_min_le_init (y :: t) a
    · exact foldl_min_le_mem (y :: t) x a hat

/-- Claim C5, witness at the concrete sequence `[10, 7, 3]`. -/
theorem C5_analyze_formula_witness :
    (List.foldl min 10 [7, 3] ∈ [10, 7, 3] ∧
      ∀ a ∈ [10, 7, 3], List.foldl min 10 [7, 3] ≤ a) ∧
    analyze_stack [10, 7, 3] =
      some (10 - List.foldl min 10 [7, 3],
        ((10 - List.foldl min 10 [7, 3] : Nat) : ℚ) / ((([10, 7, 3] : List Nat).length : Nat) : ℚ)) :=
  C5_analyze_formula 10 7 [3]

/-- Claim C6: `analyze_stack` returns `none` ("insufficient data") if and
only if the sample sequence has fewer than 2 samples; equivalently it
returns a `(total_used, per_level)` result exactly on sequences of length
at least 2. -/
theorem C6_analyze_insufficient_data (s : List Nat) :
    (analyze_stack s = none ↔ s.length < 2) ∧
    ((analyze_stack s).isSome ↔ 2 ≤ s.length) := by
  match s with
  | [] => exact ⟨by simp [analyze_stack], by simp [analyze_stack]⟩
  | [x] => exact ⟨by simp [analyze_stack], by simp [analyze_stack]⟩
  | x :: y :: t =>
      rw [analyze_stack_cons]
      constructor
      · simp
      · simp
      
/-- Claim C9: the saturating subtraction in `analyze_stack` never actually
saturates: the minimum of the sequence is at most its first element, the
`Nat` (saturating) difference agrees with the exact integer difference, the
analyzer returns exactly that difference, and `total_used` is at most the
first sample. -/
theorem C9_saturation_never_hit (x y : Nat) (t : List Nat) :
    List.foldl min x (y :: t) ≤ x ∧
    ((x - List.foldl min x (y :: t) : Nat) : ℤ) =
      (x : ℤ) - ((List.foldl min x (y :: t) : Nat) : ℤ) ∧
    analyze_stack (x :: y :: t) =
      some (x - List.foldl min x (y :: t),
        ((x - List.foldl min x (y :: t) : Nat) : ℚ) / (((x :: y :: t).length : Nat) : ℚ)) ∧
    x - List.foldl min x (y :: t) ≤ x := by
  have hle : List.foldl min x (y :: t) ≤ x := foldl_min_le_init (y :: t) x
  exact ⟨hle, Nat.cast_sub hle, analyze_stack_cons x y t, Nat.sub_le x _⟩

/-- Claim C9, witness at the concrete sequence `[10, 7, 3]`. -/
theorem C9_saturation_never_hit_witness :
    List.foldl min 10 [7, 3] ≤ 10 ∧
    ((10 - List.foldl min 10 [7, 3] : Nat) : ℤ) =
      (10 : ℤ) - ((List.foldl min 10 [7, 3] : Nat) : ℤ) ∧
    analyze_stack [10, 7, 3] =
      some (10 - List.foldl min 10 [7, 3],
        ((10 - List.foldl min 10 [7, 3] : Nat) : ℚ) / ((([10, 7, 3] : List Nat).length : Nat) : ℚ)) ∧
    10 - List.foldl min 10 [7, 3] ≤ 10 :=
  C9_saturation_never_hit 10 7 [3]

/-! ### The builders as bounded iteration of a constant loop body (C7) -/

/-- One iteration of the integer construction loop: the state is the loop
counter together with the chain built so far, and the body wraps the chain
in one `Next` node. -/
def fact_build_step (p : Nat × BoxedFact Nat) : Nat × BoxedFact Nat :=
  (p.1 + 1, BoxedFact.Next (p.1 + 1) p.2)

/-- One iteration of the string construction loop: the counter runs
downwards (the loop is `(1..=n).rev()`) and the body wraps the chain in one
`Next` node labelled with the current counter value. -/
def string_build_step (p : Nat × BoxedString) : Nat × BoxedString :=
  (p.1 - 1, BoxedString.Next (toString p.1 ++ "-") p.2)

/-- Unrolling the integer construction loop once at the tail. -/
theorem make_boxed_fact_u8_succ (n : Nat) :
    make_boxed_fact_u8 (n + 1) = BoxedFact.Next (n + 1) (make_boxed_fact_u8 n) := by
  unfold make_boxed_fact_u8
  rw [List.range'_concat, List.foldl_append]
  simp [Nat.add_comm]

/-- The integer builder is exactly `n` iterations of the loop body from the
initial state `(0, Done 1)`. -/
theorem fact_build_iterate (n : Nat) :
    fact_build_step^[n] (0, BoxedFact.Done 1) = (n, make_boxed_fact_u8 n) := by
  induction n with
  | zero => rfl
  | succ m ih =>
      rw [Function.iterate_succ_apply', ih, make_boxed_fact_u8_succ]
      rfl

/-- The string builder is exactly `k` iterations of the (downward-counting)
loop body, from any starting chain. -/
theorem string_build_iterate (k : Nat) :
    ∀ acc : BoxedString,
      string_build_step^[k] (k, acc) =
        (0, (List.range' 1 k).reverse.foldl
          (fun current i => BoxedString.Next (toString i ++ "-") current) acc) := by
  induction k with
  | zero => intro acc; rfl
  | succ m ih =>
      intro acc
      rw [Function.iterate_succ_apply]
      have hstep : string_build_step (m + 1, acc) =
          (m, BoxedString.Next (toString (m + 1) ++ "-") acc) := by
        simp [string_build_step]
      rw [hstep, ih]
      rw [List.range'_concat]
      simp [Nat.add_comm]

/-- Claim C7: every structure builder is a terminating loop — each equals
the `n`-fold iteration of its constant-size loop body from its initial
state — and for every input `n` it terminates with a complete chain of
`n + 1` nodes. -/
theorem C7_builders_iterative (n : Nat) :
    make_boxed_fact_u8 n = (fact_build_step^[n] (0, BoxedFact.Done 1)).2 ∧
    make_boxed_fact_u64 n = (fact_build_step^[n] (0, BoxedFact.Done 1)).2 ∧
    make_boxed_fact_u128 n = (fact_build_step^[n] (0, BoxedFact.Done 1)).2 ∧
    make_boxed_string n =
      (string_build_step^[n] (n, BoxedString.Done (toString (0 : Nat) ++ "-"))).2 ∧
    chainLength (make_boxed_fact_u8 n) = n + 1 ∧
    chainLength (make_boxed_fact_u64 n) = n + 1 ∧
    chainLength (make_boxed_fact_u128 n) = n + 1 ∧
    chainLengthS (make_boxed_string n) = n + 1 := by
  refine ⟨?_, ?_, ?_, ?_, chainLength_make_boxed_fact n, chainLength_make_boxed_fact n,
    chainLength_make_boxed_fact n, chainLengthS_make_boxed_string n⟩
  · rw [fact_build_iterate]
  · rw [fact_build_iterate]; rfl
  · rw [fact_build_iterate]; rfl
  · rw [string_build_iterate]
    rfl
